import Mathlib

/-!
Verification of the client-side crack-statistics and filtering logic of the
ARF_REACT building-inspection dashboard (src/src/pages/BuildingList.jsx).

The embedding below translates the data model and the pure data
transformations of that file into Lean:

* a `Crack` carries a nullable width in millimeters (`Option ℚ`), a type
  label, and a timestamp (JS compares `new Date(...)` values, which is the
  numeric order of their epoch values, so timestamps are embedded as `ℕ`);
* a `Waypoint` may lack its `cracks` field (`Option (List Crack)`), and a
  `Building` may lack `waypoints`, `name` or `address`;
* strings are embedded as `List Char`; `toLowerCase`, `trim` and
  `includes` are embedded as `toLowerL`, `trimL` and `containsL`;
* JS number literals `0.3`, `0.2` appear as `mkRat 3 10`, `mkRat 2 10`.

All functions are total Lean functions, mirroring that the source code
never throws on missing nested data (it defaults absent arrays to empty
and filters out null widths where it does not substitute 0).
-/

namespace ARF

/-- A crack record as served by the backend: nullable `widthMm`, a
crack-type label and a timestamp. -/
structure Crack where
  widthMm : Option ℚ
  crackType : List Char
  timestamp : ℕ
deriving DecidableEq, Repr

/-- A waypoint: a label and a possibly absent list of cracks
(`wp.cracks` may be `undefined` in the source data). -/
structure Waypoint where
  label : List Char
  cracks : Option (List Crack)
deriving DecidableEq, Repr

/-- A building record: id, optional name/address, possibly absent
`waypoints`. -/
structure Building where
  id : ℕ
  name : Option (List Char)
  address : Option (List Char)
  waypoints : Option (List Waypoint)
deriving DecidableEq, Repr

/-- The three severity labels returned by `getCrackSeverity`.
In the source they are the strings "심각" (severe), "주의" (caution) and
"관찰" (observe). -/
inductive Severity where
  | observe
  | caution
  | severe
deriving DecidableEq, Repr

/-- `getCrackSeverity` from BuildingList.jsx:
null check first, then `maxWidthMm >= 0.3` gives severe,
`maxWidthMm >= 0.2` gives caution, otherwise observe. -/
def getCrackSeverity (maxWidthMm : Option ℚ) : Severity :=
  match maxWidthMm with
  | none => .observe
  | some w =>
    if mkRat 3 10 ≤ w then .severe
    else if mkRat 2 10 ≤ w then .caution
    else .observe

/-- The width list used by the severity filter and by `crackStats`:
`b.waypoints ? b.waypoints.flatMap(wp => wp.cracks?.map(c => c.widthMm).filter(w => w != null) || []) : []`.
Mapping to `widthMm` and dropping nulls is `filterMap id` over the mapped
options. -/
def buildingWidths (b : Building) : List ℚ :=
  match b.waypoints with
  | none => []
  | some wps =>
    wps.flatMap (fun wp =>
      match wp.cracks with
      | none => []
      | some cs => (cs.map Crack.widthMm).filterMap id)

/-- `widths.length ? Math.max(...widths) : null` on a rational list. -/
def listMaxQ : List ℚ → Option ℚ
  | [] => none
  | w :: ws => some (ws.foldl max w)

/-- The severity the filter effect assigns to a building: the classifier
applied to the maximum of its non-null widths (null when there are none). -/
def severityOfBuilding (b : Building) : Severity :=
  getCrackSeverity (listMaxQ (buildingWidths b))

/-! ### Search and filter pipeline -/

/-- `String.prototype.toLowerCase`, character by character. -/
def toLowerL (s : List Char) : List Char := s.map Char.toLower

/-- `String.prototype.trim`: drop whitespace from both ends. -/
def trimL (s : List Char) : List Char :=
  ((s.dropWhile Char.isWhitespace).reverse.dropWhile Char.isWhitespace).reverse

/-- Does `hay` start with `needle`? (helper for substring containment). -/
def startsWithL : List Char → List Char → Bool
  | _, [] => true
  | [], _ :: _ => false
  | a :: hay, b :: needle => a == b && startsWithL hay needle

/-- `String.prototype.includes`: `needle` occurs contiguously in `hay`. -/
def containsL : List Char → List Char → Bool
  | [], needle => needle.isEmpty
  | a :: hay, needle => startsWithL (a :: hay) needle || containsL hay needle

/-- `field?.toLowerCase().includes(term)`: an absent field is falsy and
never matches. -/
def optFieldIncludes (field : Option (List Char)) (term : List Char) : Bool :=
  match field with
  | none => false
  | some s => containsL (toLowerL s) term

/-- The text-filter predicate of the filter effect:
`term = searchTerm.trim().toLowerCase()` and then
`!term || b.name?.toLowerCase().includes(term) || b.address?.toLowerCase().includes(term)`. -/
def textMatch (searchTerm : List Char) (b : Building) : Bool :=
  let term := toLowerL (trimL searchTerm)
  term.isEmpty || optFieldIncludes b.name term || optFieldIncludes b.address term

/-- Step 2 of the filter effect: when `activeFilters` is non-empty, keep
buildings whose classified severity is in `activeFilters`
(`activeFilters.includes(severity)`); otherwise leave the list alone. -/
def severityFilterStep (activeFilters : List Severity) (bs : List Building) :
    List Building :=
  if 0 < activeFilters.length then
    bs.filter (fun b => activeFilters.contains (severityOfBuilding b))
  else bs

/-- The whole filter effect: text filter then severity filter. -/
def filterPipeline (searchTerm : List Char) (activeFilters : List Severity)
    (bs : List Building) : List Building :=
  severityFilterStep activeFilters (bs.filter (textMatch searchTerm))

/-! ### Card view (per-building metrics in `BuildingCard`) -/

/-- A flattened crack record with the waypoint label spread in:
`{ ...c, waypointLabel: wp.label }`. -/
structure CrackRec where
  widthMm : Option ℚ
  crackType : List Char
  timestamp : ℕ
  waypointLabel : List Char
deriving DecidableEq, Repr

/-- `BuildingCard`'s flattened crack list:
`building.waypoints ? building.waypoints.flatMap(wp => wp.cracks?.map(c => ({...c, waypointLabel: wp.label})) || []) : []`. -/
def cardCracks (b : Building) : List CrackRec :=
  match b.waypoints with
  | none => []
  | some wps =>
    wps.flatMap (fun wp =>
      match wp.cracks with
      | none => []
      | some cs =>
        cs.map (fun c =>
          { widthMm := c.widthMm, crackType := c.crackType,
            timestamp := c.timestamp, waypointLabel := wp.label }))

/-- `cracks.length ? cracks.reduce((a, b) => new Date(a.timestamp) > new Date(b.timestamp) ? a : b).timestamp : null`. -/
def lastChecked (b : Building) : Option ℕ :=
  match cardCracks b with
  | [] => none
  | c :: cs =>
    some ((cs.foldl (fun a x => if a.timestamp > x.timestamp then a else x) c).timestamp)

/-- `crackCount = cracks.length`. -/
def cardCrackCount (b : Building) : ℕ := (cardCracks b).length

/-- `cracks.length ? Math.max(...cracks.map(c => c.widthMm || 0)) : 0`.
A null width is substituted by 0 (`c.widthMm || 0`). -/
def cardMaxWidth (b : Building) : ℚ :=
  match cardCracks b with
  | [] => 0
  | c :: cs => cs.foldl (fun m x => max m (x.widthMm.getD 0)) (c.widthMm.getD 0)

/-- `cracks.length ? cracks.reduce((s, c) => s + (c.widthMm || 0), 0) / crackCount : 0`,
before the display-only `.toFixed(2)` rounding. -/
def cardAvgWidth (b : Building) : ℚ :=
  match cardCracks b with
  | [] => 0
  | c :: cs =>
    ((c :: cs).foldl (fun s x => s + x.widthMm.getD 0) 0) / (c :: cs).length

/-! ### Aggregation and ranking (`crackStats`) -/

/-- One entry pushed onto `stats` inside `crackStats`. -/
structure StatEntry where
  id : ℕ
  name : Option (List Char)
  crackCount : ℕ
  maxWidth : ℚ
  avgWidth : ℚ
deriving DecidableEq, Repr

/-- The per-building body of the `buildings.forEach` loop in `crackStats`:
when `count > 0` it pushes an entry with
`maxWidth = Math.max(...widths)` and
`avgWidth = widths.reduce((s, w) => s + w, 0) / count`. -/
def statOf (b : Building) : Option StatEntry :=
  match buildingWidths b with
  | [] => none
  | w :: ws =>
    some { id := b.id, name := b.name,
           crackCount := (w :: ws).length,
           maxWidth := ws.foldl max w,
           avgWidth := ((w :: ws).foldl (· + ·) 0) / (w :: ws).length }

/-- Insert `x` after every element whose key is at least `key x`.  This is
the behaviour a stable JS `Array.prototype.sort` with the comparator
`(a, b) => b[key] - a[key]` gives to each element relative to the part of
the array already in order: descending keys, ties kept in input order. -/
def insertDesc (key : StatEntry → ℚ) (x : StatEntry) :
    List StatEntry → List StatEntry
  | [] => [x]
  | y :: ys => if key x ≤ key y then y :: insertDesc key x ys else x :: y :: ys

/-- Stable descending sort by `key`: the embedding of
`[...].sort((a, b) => b[key] - a[key])`. -/
def sortDesc (key : StatEntry → ℚ) (l : List StatEntry) : List StatEntry :=
  l.foldl (fun acc x => insertDesc key x acc) []

/-- `sortBy = (key) => [...stats].sort((a, b) => b[key] - a[key]).slice(0, 3)`. -/
def sortBy (key : StatEntry → ℚ) (stats : List StatEntry) : List StatEntry :=
  (sortDesc key stats).take 3

/-- The value returned by the `crackStats` memo. -/
structure CrackStats where
  totalCracks : ℕ
  sortedByCount : List StatEntry
  sortedByWidth : List StatEntry
  sortedByAvgWidth : List StatEntry
deriving DecidableEq, Repr

/-- The list of stat entries accumulated by `crackStats` over `buildings`,
in input order. -/
def statsList (bs : List Building) : List StatEntry := bs.filterMap statOf

/-- `crackStats`: `totalCracks` accumulates `widths.length` for every
building (so a building with no counted widths adds 0), and the three
rankings sort the pushed entries by the three keys. -/
def crackStats (bs : List Building) : CrackStats :=
  { totalCracks := (bs.map (fun b => (buildingWidths b).length)).sum,
    sortedByCount := sortBy (fun e => (e.crackCount : ℚ)) (statsList bs),
    sortedByWidth := sortBy (fun e => e.maxWidth) (statsList bs),
    sortedByAvgWidth := sortBy (fun e => e.avgWidth) (statsList bs) }

/-- Total number of crack records (regardless of width) across all
buildings and waypoints. -/
def totalCrackRecords (bs : List Building) : ℕ :=
  (bs.map (fun b => (cardCracks b).length)).sum

/-! ### Array stores: mutation model for C10

JS arrays are heap objects and `Array.prototype.sort` mutates its
receiver in place.  To state that `crackStats` leaves its input alone we
model a store of arrays (references are indices) and embed
`sortBy = (key) => [...stats].sort(cmp).slice(0, 3)` as a store program:
the spread `[...stats]` allocates a fresh array, the in-place sort writes
only to that fresh array, and `slice` reads it. -/

/-- A store of `StatEntry` arrays; a reference is an index. -/
abbrev StatStore : Type := List (List StatEntry)

/-- Read the array a reference points to. -/
def readArr (σ : StatStore) (r : ℕ) : List StatEntry := σ.getD r []

/-- The `sortBy` closure of `crackStats` as a store program: allocate a
copy of the array at `r` (the spread), destructively sort the copy
(`.sort` writes the sorted array back into the copy's cell), and return
the new store together with the first three elements of the copy. -/
def sortBySpreadProg (key : StatEntry → ℚ) (σ : StatStore) (r : ℕ) :
    StatStore × List StatEntry :=
  let c := σ.length
  let σ₁ := σ ++ [readArr σ r]
  let σ₂ := σ₁.set c (sortDesc key (readArr σ₁ c))
  (σ₂, (readArr σ₂ c).take 3)

/-- A store of `Building` arrays for the filter effect. -/
abbrev BuildingStore : Type := List (List Building)

/-- Read a building array from the store. -/
def readBArr (σ : BuildingStore) (r : ℕ) : List Building := σ.getD r []

/-- `arr.filter(p)` as a store program: `Array.prototype.filter` allocates
a fresh array and never writes to its receiver. -/
def filterProg (p : Building → Bool) (σ : BuildingStore) (r : ℕ) :
    BuildingStore × ℕ :=
  (σ ++ [(readBArr σ r).filter p], σ.length)

/-! ### Spec-side predicates and sample data -/

/-- Case-insensitive containment of `t` in an optional field, lowering
both sides; an absent field never matches. -/
def optIncludesCI (field : Option (List Char)) (t : List Char) : Bool :=
  match field with
  | none => false
  | some s => containsL (toLowerL s) (toLowerL t)

/-- The text-filter predicate exactly as the spec sentence words it: keep
a building when the search term itself occurs in the name or the address
as a case-insensitive substring, or when the term is empty or
whitespace-only.  (Stated from the spec, to be compared with `textMatch`,
which matches against the trimmed term.) -/
def specTextKeeps (searchTerm : List Char) (b : Building) : Bool :=
  (trimL searchTerm).isEmpty ||
  optIncludesCI b.name searchTerm ||
  optIncludesCI b.address searchTerm

/-- The text-filter predicate with the spec sentence amended to match on
the whitespace-trimmed term, as the code does. -/
def specTextKeepsTrimmed (searchTerm : List Char) (b : Building) : Bool :=
  (trimL searchTerm).isEmpty ||
  optIncludesCI b.name (trimL searchTerm) ||
  optIncludesCI b.address (trimL searchTerm)

/-- What one ranking list of `crackStats` satisfies: at most three
entries; keys descending; every entry has a positive counted-crack count
and comes from a building of the input that has at least one crack
record; the ranking is the 3-element prefix of the stable descending
sort, which permutes the pushed entries and, restricted to any one key
value, preserves their input order (stability). -/
def rankingOK (key : StatEntry → ℚ) (bs : List Building)
    (ranking : List StatEntry) : Prop :=
  ranking.length ≤ 3 ∧
  ranking.Pairwise (fun a b => key b ≤ key a) ∧
  (∀ e, e ∈ ranking → 0 < e.crackCount ∧
    ∃ b, b ∈ bs ∧ e.id = b.id ∧ e.name = b.name ∧ cardCracks b ≠ []) ∧
  ranking = (sortDesc key (statsList bs)).take 3 ∧
  (sortDesc key (statsList bs)).Perm (statsList bs) ∧
  (∀ q : ℚ, (sortDesc key (statsList bs)).filter (fun e => key e == q) =
      (statsList bs).filter (fun e => key e == q))

/-- Sample building A of the spec's worked example: crack widths
0.1 mm and 0.35 mm. -/
def bA : Building :=
  { id := 1, name := some (String.data "alpha"),
    address := some (String.data "seoul one"),
    waypoints := some
      [{ label := String.data "W1",
         cracks := some
           [{ widthMm := some (mkRat 1 10), crackType := String.data "ta",
              timestamp := 100 },
            { widthMm := some (mkRat 35 100), crackType := String.data "tb",
              timestamp := 200 }] }] }

/-- Sample building B of the spec's worked example: no cracks at all. -/
def bB : Building :=
  { id := 2, name := some (String.data "beta"), address := none,
    waypoints := some [] }

/-- A building whose single crack record has a null width. -/
def bN : Building :=
  { id := 3, name := some (String.data "gamma"), address := none,
    waypoints := some
      [{ label := String.data "W1",
         cracks := some
           [{ widthMm := none, crackType := String.data "tc",
              timestamp := 50 }] }] }

/-- A building with one null-width crack and one 0.4 mm crack. -/
def bMixed : Building :=
  { id := 4, name := some (String.data "delta"), address := none,
    waypoints := some
      [{ label := String.data "W1",
         cracks := some
           [{ widthMm := none, crackType := String.data "td",
              timestamp := 10 },
            { widthMm := some (mkRat 2 5), crackType := String.data "te",
              timestamp := 20 }] }] }

/-- A building with one null-width crack and one crack of width
-0.1 mm: the only shape on which the two maximum computations differ,
since the card view's null-to-0 substitution feeds a 0 into its max. -/
def bNeg : Building :=
  { id := 6, name := some (String.data "eps"), address := none,
    waypoints := some
      [{ label := String.data "W1",
         cracks := some
           [{ widthMm := none, crackType := String.data "tf",
              timestamp := 30 },
            { widthMm := some (mkRat (-1) 10), crackType := String.data "tg",
              timestamp := 40 }] }] }

/-- A building named "a", used against the search term " a ". -/
def bTiny : Building :=
  { id := 5, name := some (String.data "a"), address := none,
    waypoints := none }

/-- A concrete stat entry for exercising the store model. -/
def eSample : StatEntry :=
  { id := 1, name := some (String.data "alpha"), crackCount := 2,
    maxWidth := mkRat 35 100, avgWidth := mkRat 9 40 }

/-- The stat entry `crackStats` pushes for `bMixed`: only the single
non-null width is counted. -/
def eMixed : StatEntry :=
  { id := 4, name := some (String.data "delta"), crackCount := 1,
    maxWidth := mkRat 2 5, avgWidth := mkRat 2 5 }

/-! ### Helper lemmas about the stable descending sort -/

lemma mem_insertDesc (key : StatEntry → ℚ) (x z : StatEntry) :
    ∀ l : List StatEntry, z ∈ insertDesc key x l ↔ z = x ∨ z ∈ l := by
  intro l
  induction l with
  | nil => simp [insertDesc]
  | cons y ys ih =>
    simp only [insertDesc]
    split
    · simp only [List.mem_cons, ih]
      tauto
    · simp only [List.mem_cons]

lemma insertDesc_perm (key : StatEntry → ℚ) (x : StatEntry)
    (l : List StatEntry) : (insertDesc key x l).Perm (x :: l) := by
  induction l with
  | nil => exact List.Perm.refl _
  | cons y ys ih =>
    simp only [insertDesc]
    split
    · exact (ih.cons y).trans (List.Perm.swap x y ys)
    · exact List.Perm.refl _

lemma pairwise_insertDesc (key : StatEntry → ℚ) (x : StatEntry)
    {l : List StatEntry} (h : l.Pairwise (fun a b => key b ≤ key a)) :
    (insertDesc key x l).Pairwise (fun a b => key b ≤ key a) := by
  induction l with
  | nil => simp [insertDesc]
  | cons y ys ih =>
    rcases List.pairwise_cons.mp h with ⟨hy, hys⟩
    simp only [insertDesc]
    split
    · rename_i hxy
      refine List.pairwise_cons.mpr ⟨?_, ih hys⟩
      intro z hz
      rcases (mem_insertDesc key x z ys).mp hz with rfl | hz
      · exact hxy
      · exact hy z hz
    · rename_i hxy
      push_neg at hxy
      refine List.pairwise_cons.mpr ⟨?_, h⟩
      intro z hz
      rcases List.mem_cons.mp hz with rfl | hz
      · exact le_of_lt hxy
      · exact le_of_lt (lt_of_le_of_lt (hy z hz) hxy)

lemma filter_insertDesc_of_eq (key : StatEntry → ℚ) {x : StatEntry} {q : ℚ}
    (hx : key x = q) :
    ∀ {l : List StatEntry}, l.Pairwise (fun a b => key b ≤ key a) →
      (insertDesc key x l).filter (fun e => key e == q) =
        l.filter (fun e => key e == q) ++ [x] := by
  intro l
  induction l with
  | nil => intro _; simp [insertDesc, List.filter_cons, hx]
  | cons y ys ih =>
    intro h
    rcases List.pairwise_cons.mp h with ⟨hy, hys⟩
    simp only [insertDesc]
    split
    · rename_i hxy
      simp only [List.filter_cons]
      rw [ih hys]
      by_cases hyq : (key y == q) = true
      · simp [hyq]
      · simp [hyq]
    · rename_i hxy
      push_neg at hxy
      have hnil : (y :: ys).filter (fun e => key e == q) = [] := by
        rw [List.filter_eq_nil_iff]
        intro z hz
        have hlt : key z < key x := by
          rcases List.mem_cons.mp hz with rfl | hz
          · exact hxy
          · exact lt_of_le_of_lt (hy z hz) hxy
        simp only [beq_iff_eq]
        intro hzq
        rw [hx] at hlt
        exact absurd hzq (ne_of_lt hlt)
      rw [List.filter_cons_of_pos (by simp [hx]), hnil]
      rfl

lemma filter_insertDesc_of_ne (key : StatEntry → ℚ) {x : StatEntry} {q : ℚ}
    (hx : key x ≠ q) (l : List StatEntry) :
    (insertDesc key x l).filter (fun e => key e == q) =
      l.filter (fun e => key e == q) := by
  induction l with
  | nil => simp [insertDesc, List.filter_cons, hx]
  | cons y ys ih =>
    simp only [insertDesc]
    split
    · simp only [List.filter_cons, ih]
    · rw [List.filter_cons_of_neg (by simp [hx])]

lemma sortDescAux_pairwise (key : StatEntry → ℚ) :
    ∀ (l acc : List StatEntry),
      acc.Pairwise (fun a b => key b ≤ key a) →
      (l.foldl (fun acc x => insertDesc key x acc) acc).Pairwise
        (fun a b => key b ≤ key a) := by
  intro l
  induction l with
  | nil => intro acc h; exact h
  | cons x l ih =>
    intro acc h
    exact ih _ (pairwise_insertDesc key x h)

lemma sortDescAux_perm (key : StatEntry → ℚ) :
    ∀ (l acc : List StatEntry),
      (l.foldl (fun acc x => insertDesc key x acc) acc).Perm (acc ++ l) := by
  intro l
  induction l with
  | nil => intro acc; simp
  | cons x l ih =>
    intro acc
    simp only [List.foldl_cons]
    have h1 := ih (insertDesc key x acc)
    have h2 : (insertDesc key x acc ++ l).Perm ((x :: acc) ++ l) :=
      (insertDesc_perm key x acc).append_right l
    have h3 : ((x :: acc) ++ l).Perm (acc ++ x :: l) := List.perm_middle.symm
    exact h1.trans (h2.trans h3)

lemma sortDescAux_filter (key : StatEntry → ℚ) (q : ℚ) :
    ∀ (l acc : List StatEntry),
      acc.Pairwise (fun a b => key b ≤ key a) →
      (l.foldl (fun acc x => insertDesc key x acc) acc).filter
          (fun e => key e == q) =
        acc.filter (fun e => key e == q) ++ l.filter (fun e => key e == q) := by
  intro l
  induction l with
  | nil => intro acc _; simp
  | cons x l ih =>
    intro acc h
    simp only [List.foldl_cons]
    rw [ih _ (pairwise_insertDesc key x h)]
    by_cases hx : key x = q
    · rw [filter_insertDesc_of_eq key hx h,
        List.filter_cons_of_pos (by simp [hx]), List.append_assoc]
      rfl
    · rw [filter_insertDesc_of_ne key hx,
        List.filter_cons_of_neg (by simp [hx])]

lemma sortDesc_pairwise (key : StatEntry → ℚ) (l : List StatEntry) :
    (sortDesc key l).Pairwise (fun a b => key b ≤ key a) :=
  sortDescAux_pairwise key l [] (by simp)

lemma sortDesc_perm (key : StatEntry → ℚ) (l : List StatEntry) :
    (sortDesc key l).Perm l := by
  have h := sortDescAux_perm key l []
  simpa using h

lemma sortDesc_filter (key : StatEntry → ℚ) (q : ℚ) (l : List StatEntry) :
    (sortDesc key l).filter (fun e => key e == q) =
      l.filter (fun e => key e == q) := by
  have h := sortDescAux_filter key q l [] (by simp)
  simpa using h

/-! ### Bridge lemmas between the two views of a building's cracks -/

lemma buildingWidths_eq_filterMap (b : Building) :
    buildingWidths b = (cardCracks b).filterMap CrackRec.widthMm := by
  unfold buildingWidths cardCracks
  cases b.waypoints with
  | none => rfl
  | some wps =>
    induction wps with
    | nil => rfl
    | cons wp wps ih =>
      simp only [List.flatMap_cons, List.filterMap_append]
      rw [← ih]
      congr 1
      cases wp.cracks with
      | none => rfl
      | some cs =>
        show (cs.map Crack.widthMm).filterMap id =
          (cs.map fun c =>
            ({ widthMm := c.widthMm, crackType := c.crackType,
               timestamp := c.timestamp,
               waypointLabel := wp.label } : CrackRec)).filterMap
            CrackRec.widthMm
        rw [List.filterMap_map, List.filterMap_map]
        rfl

lemma statOf_mem_fields {b : Building} {e : StatEntry}
    (h : statOf b = some e) :
    0 < e.crackCount ∧ e.id = b.id ∧ e.name = b.name ∧ cardCracks b ≠ [] := by
  unfold statOf at h
  cases hw : buildingWidths b with
  | nil => rw [hw] at h; exact absurd h (by simp)
  | cons w ws =>
    rw [hw] at h
    have he := (Option.some_injective _ h).symm
    have hcard : cardCracks b ≠ [] := by
      intro hc
      rw [buildingWidths_eq_filterMap, hc] at hw
      exact absurd hw (by simp)
    subst he
    exact ⟨by simp, rfl, rfl, hcard⟩

lemma length_buildingWidths (b : Building) :
    (buildingWidths b).length =
      ((cardCracks b).filter (fun r => r.widthMm.isSome)).length := by
  rw [buildingWidths_eq_filterMap, List.length_filterMap_eq_countP,
    List.countP_eq_length_filter]

lemma foldl_maxTimestamp (cs : List CrackRec) :
    ∀ c : CrackRec,
      (cs.foldl (fun a x => if a.timestamp > x.timestamp then a else x) c)
          ∈ c :: cs ∧
      ∀ x ∈ c :: cs, x.timestamp ≤
        (cs.foldl (fun a x => if a.timestamp > x.timestamp then a else x)
          c).timestamp := by
  induction cs with
  | nil => intro c; simp
  | cons y ys ih =>
    intro c
    simp only [List.foldl_cons]
    obtain ⟨hmem, hmax⟩ := ih (if c.timestamp > y.timestamp then c else y)
    constructor
    · rcases List.mem_cons.mp hmem with h | h
      · rw [h]
        by_cases hc : c.timestamp > y.timestamp <;> simp [hc]
      · simp [List.mem_cons, h]
    · intro x hx
      have hstep : ∀ z, z = c ∨ z = y →
          z.timestamp ≤ (if c.timestamp > y.timestamp then c else y).timestamp := by
        intro z hz
        by_cases hc : c.timestamp > y.timestamp <;>
          rcases hz with rfl | rfl <;> simp [hc] <;> omega
      rcases List.mem_cons.mp hx with rfl | hx
      · exact le_trans (hstep x (Or.inl rfl))
          (hmax _ (List.mem_cons_self _ _))
      rcases List.mem_cons.mp hx with rfl | hx
      · exact le_trans (hstep x (Or.inr rfl))
          (hmax _ (List.mem_cons_self _ _))
      · exact hmax x (List.mem_cons_of_mem _ hx)

lemma textMatch_eq (t : List Char) (b : Building) :
    textMatch t b = specTextKeepsTrimmed t b := by
  have hempty : ∀ l : List Char, (toLowerL l).isEmpty = l.isEmpty := by
    intro l; cases l <;> rfl
  simp only [textMatch, specTextKeepsTrimmed, optFieldIncludes, optIncludesCI]
  rw [hempty]

/-! ### Claim theorems -/

/-- C1: the severity classifier is a pure function of the maximum width
in millimeters: it returns severe exactly when 0.3 ≤ w, caution when
0.2 ≤ w < 0.3, observe when w < 0.2, and observe on a null/absent width.
The thresholds are exact comparisons on the raw rational value. -/
theorem C1_severity_thresholds (w : ℚ) :
    (mkRat 3 10 ≤ w → getCrackSeverity (some w) = Severity.severe) ∧
    (mkRat 2 10 ≤ w → w < mkRat 3 10 →
      getCrackSeverity (some w) = Severity.caution) ∧
    (w < mkRat 2 10 → getCrackSeverity (some w) = Severity.observe) ∧
    getCrackSeverity none = Severity.observe := by
  refine ⟨fun h => ?_, fun h1 h2 => ?_, fun h => ?_, rfl⟩
  · show (if mkRat 3 10 ≤ w then Severity.severe
      else if mkRat 2 10 ≤ w then Severity.caution else Severity.observe) = _
    rw [if_pos h]
  · show (if mkRat 3 10 ≤ w then Severity.severe
      else if mkRat 2 10 ≤ w then Severity.caution else Severity.observe) = _
    rw [if_neg (not_le.mpr h2), if_pos h1]
  · show (if mkRat 3 10 ≤ w then Severity.severe
      else if mkRat 2 10 ≤ w then Severity.caution else Severity.observe) = _
    have h3 : ¬ mkRat 3 10 ≤ w :=
      not_le.mpr (lt_of_lt_of_le h (by decide))
    rw [if_neg h3, if_neg (not_le.mpr h)]

/-- C1 witness: the classifier evaluated on 0.4, 0.25, 0.1 and null. -/
theorem C1_witness :
    getCrackSeverity (some (mkRat 2 5)) = Severity.severe ∧
    getCrackSeverity (some (mkRat 1 4)) = Severity.caution ∧
    getCrackSeverity (some (mkRat 1 10)) = Severity.observe ∧
    getCrackSeverity none = Severity.observe :=
  ⟨(C1_severity_thresholds (mkRat 2 5)).1 (by decide),
   (C1_severity_thresholds (mkRat 1 4)).2.1 (by decide) (by decide),
   (C1_severity_thresholds (mkRat 1 10)).2.2.1 (by decide),
   (C1_severity_thresholds 0).2.2.2⟩

/-- C4: with a non-empty active-filter set the severity filter keeps
exactly the buildings whose classified maximum non-null width lies in
the set; a building with no numeric widths classifies as observe; with
an empty set every building passes; and the filter is a sublist of the
input (order preserved, nothing added). -/
theorem C4_severity_filter (bs : List Building) (fs : List Severity) :
    (fs ≠ [] → ∀ b : Building,
      b ∈ severityFilterStep fs bs ↔
        b ∈ bs ∧ getCrackSeverity (listMaxQ (buildingWidths b)) ∈ fs) ∧
    (∀ b : Building, buildingWidths b = [] →
      severityOfBuilding b = Severity.observe) ∧
    (fs = [] → severityFilterStep fs bs = bs) ∧
    List.Sublist (severityFilterStep fs bs) bs := by
  refine ⟨?_, ?_, ?_, ?_⟩
  · intro hfs b
    unfold severityFilterStep
    rw [if_pos (List.length_pos.mpr hfs), List.mem_filter]
    unfold severityOfBuilding
    simp [List.contains]
  · intro b h
    unfold severityOfBuilding
    rw [h]
    rfl
  · intro h
    subst h
    rfl
  · unfold severityFilterStep
    split
    · exact List.filter_sublist _
    · exact List.Sublist.refl _

/-- C4 witness: the filter set containing only severe, applied to the
two-building example list, characterizes membership of building A. -/
theorem C4_witness :
    bA ∈ severityFilterStep [Severity.severe] [bA, bB] ↔
      bA ∈ [bA, bB] ∧
        getCrackSeverity (listMaxQ (buildingWidths bA)) ∈ [Severity.severe] :=
  (C4_severity_filter [bA, bB] [Severity.severe]).1 (by decide) bA

/-- C5 counterexample: for the search term " a " the code keeps the
building named "a" (it matches against the trimmed term), although " a "
is not a case-insensitive substring of "a" and the term is not
whitespace-only, so the filter does not keep exactly the buildings the
claim describes. -/
theorem C5_counterexample :
    List.filter (textMatch (String.data " a ")) [bTiny] = [bTiny] ∧
    specTextKeeps (String.data " a ") bTiny = false := by
  constructor <;> decide

/-- C5 (amended): the text filter keeps exactly the buildings whose name
or address contains the whitespace-trimmed search term as a
case-insensitive substring; a term that is empty after trimming (empty
or whitespace-only) keeps every building; order is preserved. -/
theorem C5_text_filter (searchTerm : List Char) (bs : List Building) :
    (∀ b : Building, b ∈ bs.filter (textMatch searchTerm) ↔
      b ∈ bs ∧ specTextKeepsTrimmed searchTerm b = true) ∧
    List.Sublist (bs.filter (textMatch searchTerm)) bs ∧
    ((trimL searchTerm).isEmpty = true →
      bs.filter (textMatch searchTerm) = bs) := by
  refine ⟨?_, List.filter_sublist _, ?_⟩
  · intro b
    rw [List.mem_filter, textMatch_eq]
  · intro h
    apply List.filter_eq_self.mpr
    intro b _
    rw [textMatch_eq]
    unfold specTextKeepsTrimmed
    rw [h]
    rfl

/-- C5 witness: the empty search term keeps the sample building. -/
theorem C5_witness :
    List.filter (textMatch (String.data "")) [bTiny] = [bTiny] :=
  (C5_text_filter (String.data "") [bTiny]).2.2 (by decide)

/-- C6: the whole filter effect run with an empty search term and an
empty active-filter set returns the input building list unchanged. -/
theorem C6_pipeline_identity (bs : List Building) :
    filterPipeline (String.data "") [] bs = bs := by
  unfold filterPipeline severityFilterStep
  rw [if_neg (by decide)]
  exact List.filter_eq_self.mpr (fun b _ => rfl)

/-- C9: absent nested data is treated as empty and all derived results
stay defined (every embedded function is total): a building without a
waypoints field has no cracks, no widths, observe severity, no stat
entry and a null last-checked; a waypoint without a cracks field
contributes nothing to either view; and a crack without a width is
excluded from the width list. -/
theorem C9_missing_data (i : ℕ) (n a : Option (List Char))
    (lbl tl : List Char) (ts : ℕ) (cs : List Crack) (wps : List Waypoint) :
    (cardCracks ⟨i, n, a, none⟩ = [] ∧ buildingWidths ⟨i, n, a, none⟩ = [] ∧
      cardCrackCount ⟨i, n, a, none⟩ = 0 ∧
      lastChecked ⟨i, n, a, none⟩ = none ∧
      severityOfBuilding ⟨i, n, a, none⟩ = Severity.observe ∧
      statOf ⟨i, n, a, none⟩ = none) ∧
    (buildingWidths ⟨i, n, a, some (⟨lbl, none⟩ :: wps)⟩ =
        buildingWidths ⟨i, n, a, some wps⟩ ∧
      cardCracks ⟨i, n, a, some (⟨lbl, none⟩ :: wps)⟩ =
        cardCracks ⟨i, n, a, some wps⟩) ∧
    buildingWidths ⟨i, n, a, some [⟨lbl, some (⟨none, tl, ts⟩ :: cs)⟩]⟩ =
      buildingWidths ⟨i, n, a, some [⟨lbl, some cs⟩]⟩ := by
  exact ⟨⟨rfl, rfl, rfl, rfl, rfl, rfl⟩, ⟨rfl, rfl⟩, rfl⟩

/-- C7: a building whose flattened crack list is empty has crack count 0,
maximum width 0, average width 0, null last-checked and observe
severity; and when cracks exist, last-checked is the timestamp of a
crack whose timestamp is maximal among all the building's cracks. -/
theorem C7_card_metrics (b : Building) :
    (cardCracks b = [] →
      cardCrackCount b = 0 ∧ cardMaxWidth b = 0 ∧ cardAvgWidth b = 0 ∧
      lastChecked b = none ∧ severityOfBuilding b = Severity.observe) ∧
    (cardCracks b ≠ [] →
      ∃ c, c ∈ cardCracks b ∧ lastChecked b = some c.timestamp ∧
        ∀ x ∈ cardCracks b, x.timestamp ≤ c.timestamp) := by
  constructor
  · intro h
    have hw : buildingWidths b = [] := by
      rw [buildingWidths_eq_filterMap, h]
      rfl
    refine ⟨?_, ?_, ?_, ?_, ?_⟩
    · unfold cardCrackCount
      rw [h]
      rfl
    · unfold cardMaxWidth
      rw [h]
    · unfold cardAvgWidth
      rw [h]
    · unfold lastChecked
      rw [h]
    · unfold severityOfBuilding
      rw [hw]
      rfl
  · intro h
    cases hc : cardCracks b with
    | nil => exact absurd hc h
    | cons c cs =>
      obtain ⟨hmem, hmax⟩ := foldl_maxTimestamp cs c
      refine ⟨cs.foldl (fun a x => if a.timestamp > x.timestamp then a else x) c,
        ?_, ?_, ?_⟩
      · exact hmem
      · unfold lastChecked
        rw [hc]
      · intro x hx
        exact hmax x hx

/-- C7 witness: the empty case at the crack-free building B, the
maximal-timestamp case at building A. -/
theorem C7_witness :
    (cardCrackCount bB = 0 ∧ cardMaxWidth bB = 0 ∧ cardAvgWidth bB = 0 ∧
      lastChecked bB = none ∧ severityOfBuilding bB = Severity.observe) ∧
    (∃ c, c ∈ cardCracks bA ∧ lastChecked bA = some c.timestamp ∧
      ∀ x ∈ cardCracks bA, x.timestamp ≤ c.timestamp) :=
  ⟨(C7_card_metrics bB).1 (by decide), (C7_card_metrics bA).2 (by decide)⟩

/-- C8: the card view substitutes 0 for a null width (every crack record
contributes to its count and averages) while the ranking view drops null
widths from the very same flattened records; on the building `bMixed`
(one null width, one 0.4 mm width) the two views disagree on both the
count and the average. -/
theorem C8_null_width_divergence :
    (∀ b : Building,
      buildingWidths b = (cardCracks b).filterMap CrackRec.widthMm) ∧
    (∀ b : Building, (buildingWidths b).length ≤ cardCrackCount b) ∧
    (cardCracks bMixed).any (fun r => r.widthMm.isNone) = true ∧
    (cardCracks bMixed).any (fun r => r.widthMm.isSome) = true ∧
    cardCrackCount bMixed = 2 ∧
    statOf bMixed = some eMixed ∧
    cardAvgWidth bMixed = 1/5 ∧
    cardAvgWidth bMixed ≠ eMixed.avgWidth ∧
    cardCrackCount bMixed ≠ eMixed.crackCount ∧
    cardMaxWidth bNeg = 0 ∧
    Option.map StatEntry.maxWidth (statOf bNeg) = some (mkRat (-1) 10) ∧
    cardMaxWidth bNeg ≠ mkRat (-1) 10 := by
  have hw : buildingWidths bMixed = [mkRat 2 5] := by decide
  have havg : cardAvgWidth bMixed = 1/5 := by
    have h0 : cardAvgWidth bMixed =
        (0 + (0 : ℚ) + mkRat 2 5) / ((2 : ℕ) : ℚ) := rfl
    rw [h0]
    rw [Rat.mkRat_eq_div]
    norm_num
  refine ⟨buildingWidths_eq_filterMap, ?_, by decide, by decide, by decide,
    ?_, havg, ?_, by decide, by decide, by decide, by decide⟩
  · intro b
    rw [buildingWidths_eq_filterMap]
    exact List.length_filterMap_le _ _
  · unfold statOf
    rw [hw]
    show some _ = some eMixed
    unfold eMixed
    congr 1
    simp only [StatEntry.mk.injEq]
    refine ⟨by decide, by decide, by decide, by decide, ?_⟩
    show ((0 : ℚ) + mkRat 2 5) / ((1 : ℕ) : ℚ) = mkRat 2 5
    rw [Rat.mkRat_eq_div]
    norm_num
  · rw [havg]
    unfold eMixed
    rw [Rat.mkRat_eq_div]
    norm_num

/-- C3 counterexample: a building whose single crack record has a null
width: the engine's total is 0 although there is 1 crack record, so the
total does not equal the number of crack records. -/
theorem C3_counterexample :
    (crackStats [bN]).totalCracks = 0 ∧ totalCrackRecords [bN] = 1 ∧
    (crackStats [bN]).totalCracks ≠ totalCrackRecords [bN] := by
  refine ⟨?_, ?_, ?_⟩ <;> decide

/-- C3 (amended): the engine's total crack count equals the number of
crack records with a non-null width across all buildings and all
waypoints (so a building with no such cracks contributes 0, and records
with a null width are not counted). -/
theorem C3_total_counts (bs : List Building) :
    (crackStats bs).totalCracks =
      ((bs.flatMap cardCracks).filter (fun r => r.widthMm.isSome)).length := by
  show (bs.map (fun b => (buildingWidths b).length)).sum = _
  induction bs with
  | nil => rfl
  | cons b bs ih =>
    rw [List.map_cons, List.sum_cons, List.flatMap_cons, List.filter_append,
      List.length_append, ih, length_buildingWidths]

/-- C2: each of the three rankings has at most three entries, is sorted
descending by its own metric, contains only entries with a positive
counted-crack count that come from an input building with at least one
crack record, and is the 3-prefix of a stable sort of the pushed entries
(a permutation that preserves input order within each key value). -/
theorem C2_rankings (bs : List Building) :
    rankingOK (fun e => (e.crackCount : ℚ)) bs (crackStats bs).sortedByCount ∧
    rankingOK (fun e => e.maxWidth) bs (crackStats bs).sortedByWidth ∧
    rankingOK (fun e => e.avgWidth) bs (crackStats bs).sortedByAvgWidth := by
  have main : ∀ key : StatEntry → ℚ, rankingOK key bs (sortBy key (statsList bs)) := by
    intro key
    refine ⟨?_, ?_, ?_, rfl, sortDesc_perm key _, fun q => sortDesc_filter key q _⟩
    · show ((sortDesc key (statsList bs)).take 3).length ≤ 3
      rw [List.length_take]
      exact min_le_left _ _
    · exact List.Pairwise.sublist (List.take_sublist 3 _)
        (sortDesc_pairwise key _)
    · intro e he
      have h1 : e ∈ sortDesc key (statsList bs) :=
        (List.take_sublist 3 _).subset he
      have h2 : e ∈ statsList bs := (sortDesc_perm key _).mem_iff.mp h1
      obtain ⟨b, hb, hsb⟩ := List.mem_filterMap.mp h2
      obtain ⟨hpos, hid, hname, hcard⟩ := statOf_mem_fields hsb
      exact ⟨hpos, b, hb, hid, hname, hcard⟩
  exact ⟨main _, main _, main _⟩

/-- C2 witness: the count ranking of the three-building example list has
at most three entries. -/
theorem C2_witness :
    (crackStats [bA, bB, bN]).sortedByCount.length ≤ 3 :=
  ((C2_rankings [bA, bB, bN]).1).1

/-- C10: neither the spread-then-sort of the ranking engine nor the
filter of the pipeline writes to the input array: after running the
store program for `sortBy` the cell holding the stats array is
unchanged (the in-place sort hits only the freshly allocated copy) and
the returned ranking is the pure `sortBy` of the input's value;
likewise `filter` leaves the building array's cell unchanged and puts
its result in a fresh cell. -/
theorem C10_no_mutation (key : StatEntry → ℚ) (σ : StatStore) (r : ℕ)
    (p : Building → Bool) (τ : BuildingStore) (s : ℕ)
    (hr : r < σ.length) (hs : s < τ.length) :
    readArr (sortBySpreadProg key σ r).1 r = readArr σ r ∧
    (sortBySpreadProg key σ r).2 = sortBy key (readArr σ r) ∧
    readBArr (filterProg p τ s).1 s = readBArr τ s ∧
    readBArr (filterProg p τ s).1 (filterProg p τ s).2 =
      (readBArr τ s).filter p := by
  have hcell : List.getD (σ ++ [List.getD σ r []]) σ.length [] =
      List.getD σ r [] := by
    rw [List.getD_eq_getElem?_getD, List.getElem?_concat_length]
    rfl
  refine ⟨?_, ?_, ?_, ?_⟩
  · show readArr ((σ ++ [readArr σ r]).set σ.length
      (sortDesc key (readArr (σ ++ [readArr σ r]) σ.length))) r = readArr σ r
    unfold readArr
    rw [List.getD_eq_getElem?_getD, List.getD_eq_getElem?_getD,
      List.getElem?_set_ne (Nat.ne_of_gt hr),
      List.getElem?_append_left hr]
  · show (readArr ((σ ++ [readArr σ r]).set σ.length
        (sortDesc key (readArr (σ ++ [readArr σ r]) σ.length)))
          σ.length).take 3 = sortBy key (readArr σ r)
    have hlen : σ.length < (σ ++ [List.getD σ r []]).length := by simp
    unfold readArr
    rw [List.getD_eq_getElem?_getD, List.getElem?_set_self hlen, hcell]
    rfl
  · show readBArr (τ ++ [(readBArr τ s).filter p]) s = readBArr τ s
    unfold readBArr
    rw [List.getD_eq_getElem?_getD, List.getD_eq_getElem?_getD,
      List.getElem?_append_left hs]
  · show readBArr (τ ++ [(readBArr τ s).filter p]) τ.length =
      (readBArr τ s).filter p
    unfold readBArr
    rw [List.getD_eq_getElem?_getD, List.getElem?_concat_length]
    rfl

/-- C10 witness: a one-cell store holding one stat entry, and a one-cell
building store. -/
theorem C10_witness :
    readArr (sortBySpreadProg StatEntry.maxWidth [[eSample]] 0).1 0 =
      readArr [[eSample]] 0 :=
  (C10_no_mutation StatEntry.maxWidth [[eSample]] 0 (fun _ => true) [[bA]] 0
    (by decide) (by decide)).1

end ARF
